import Mathlib

/-!
Shallow embedding of the remote-access control layer of the stronghold
client (`client/src/state/p2p.rs`): the permission model, the request
classifier, the firewall evaluator and the result-envelope conversions.

Rust `Vec<u8>` paths are modelled as `List Nat`; `HashMap` is modelled as
an association list whose lookup returns the most recently inserted
binding, which matches the observable get-after-insert semantics of a
hash map.
-/

namespace Stronghold

abbrev Path := List Nat

/-- Association-list lookup standing in for `HashMap::get`: the first
(most recently inserted) binding for the key wins. -/
def mapGet {α : Type} (m : List (Path × α)) (k : Path) : Option α :=
  match m with
  | [] => none
  | (k2, v) :: rest => if k2 = k then some v else mapGet rest k

/-- Modelled from the spec: a storage location exposing its declared
vault path (`Location::vault_path()`); the record-level part is opaque
to this layer. -/
structure Location where
  vault_path : Path
  record_path : Path
deriving DecidableEq

/-- Modelled from the spec: existence check on a vault. -/
structure CheckVault where
  vault_path : Path
deriving DecidableEq

/-- Modelled from the spec: existence check on a record. -/
structure CheckRecord where
  location : Location
deriving DecidableEq

/-- Modelled from the spec: list the record ids of a vault. -/
structure ListIds where
  vault_path : Path
deriving DecidableEq

/-- Modelled from the spec: write a record into a remote vault. -/
structure WriteToRemoteVault where
  location : Location
  payload : List Nat
  hint : Nat
deriving DecidableEq

/-- Modelled from the spec: revoke a record. -/
structure RevokeData where
  location : Location
deriving DecidableEq

/-- Modelled from the spec: read a value from the client's store. -/
structure ReadFromStore where
  key : List Nat
deriving DecidableEq

/-- Modelled from the spec: write a value into the client's store. -/
structure WriteToStore where
  key : List Nat
  payload : List Nat
deriving DecidableEq

/-- Modelled from the spec: delete a value from the client's store. -/
structure DeleteFromStore where
  key : List Nat
deriving DecidableEq

/-- Modelled from the spec: the revoke-data procedure (`procedures::RevokeData`),
carrying its target location. -/
structure ProcRevokeData where
  location : Location
  should_gc : Bool
deriving DecidableEq

/-- Modelled from the spec: the garbage-collect procedure
(`procedures::GarbageCollect`), carrying its target vault path. -/
structure GarbageCollect where
  vault_path : Path
deriving DecidableEq

/-- Modelled from the spec: a cryptographic procedure is either the
data-deleting `RevokeData` or `GarbageCollect`, or a general transform
exposing a declared input location and a declared output location
(either may be absent). -/
inductive StrongholdProcedure where
  | RevokeData : ProcRevokeData → StrongholdProcedure
  | GarbageCollect : GarbageCollect → StrongholdProcedure
  | Other : Option Location → Option Location → StrongholdProcedure
deriving DecidableEq

/-- Modelled from the spec: `StrongholdProcedure::input()`, the declared
input location of a general transform procedure.  The classifier never
consults it for the two special-cased variants. -/
def StrongholdProcedure.input : StrongholdProcedure → Option Location
  | .Other i _ => i
  | _ => none

/-- Modelled from the spec: `StrongholdProcedure::output()`, the declared
output location of a general transform procedure.  The classifier never
consults it for the two special-cased variants. -/
def StrongholdProcedure.output : StrongholdProcedure → Option Location
  | .Other _ o => o
  | _ => none

/-- Modelled from the spec: a batch of procedures. -/
structure Procedures where
  procedures : List StrongholdProcedure
deriving DecidableEq

/-- Wrapper for requests to a remote secure client (the release
variants of `Request`; `ReadFromVault` is test-only). -/
inductive Request where
  | CheckVault : CheckVault → Request
  | CheckRecord : CheckRecord → Request
  | ListIds : ListIds → Request
  | WriteToRemoteVault : WriteToRemoteVault → Request
  | RevokeData : RevokeData → Request
  | ReadFromStore : ReadFromStore → Request
  | WriteToStore : WriteToStore → Request
  | DeleteFromStore : DeleteFromStore → Request
  | Procedures : Procedures → Request
deriving DecidableEq

/-- The request envelope `ShRequest`. -/
structure ShRequest where
  client_path : Path
  request : Request
deriving DecidableEq

abbrev RecordId := Nat
abbrev RecordHint := Nat
abbrev ProcedureOutput := List Nat
abbrev ProcedureError := String
abbrev RemoteRecordError := String

/-- Modelled from the spec: the storage engine's record error, exposed
to this layer only through its string rendering. -/
structure RecordError where
  message : String
deriving DecidableEq

def RecordError.to_string (e : RecordError) : String := e.message

/-- The result envelope `ShResult` (Rust `Result<T, E>` is `Except E T`). -/
inductive ShResult where
  | Empty : Unit → ShResult
  | Data : Option (List Nat) → ShResult
  | Bool : Bool → ShResult
  | WriteRemoteVault : Except RemoteRecordError Unit → ShResult
  | ListIds : List (RecordId × RecordHint) → ShResult
  | Proc : Except ProcedureError (List ProcedureOutput) → ShResult

/-- Variant tag of an `ShResult`, used to state wrong-tag conversion facts. -/
def ShResult.tag : ShResult → Nat
  | .Empty _ => 0
  | .Data _ => 1
  | .Bool _ => 2
  | .WriteRemoteVault _ => 3
  | .ListIds _ => 4
  | .Proc _ => 5

/-- `impl From<()> for ShResult` (from `sh_result_mapping`). -/
def shFromUnit (i : Unit) : ShResult := ShResult.Empty i

/-- `impl TryFrom<ShResult> for ()` (from `sh_result_mapping`). -/
def shTryToUnit : ShResult → Except Unit Unit
  | .Empty v => Except.ok v
  | _ => Except.error ()

/-- `impl From<bool> for ShResult` (from `sh_result_mapping`). -/
def shFromBool (i : Bool) : ShResult := ShResult.Bool i

/-- `impl TryFrom<ShResult> for bool` (from `sh_result_mapping`). -/
def shTryToBool : ShResult → Except Unit Bool
  | .Bool v => Except.ok v
  | _ => Except.error ()

/-- `impl From<Option<Vec<u8>>> for ShResult` (from `sh_result_mapping`). -/
def shFromData (i : Option (List Nat)) : ShResult := ShResult.Data i

/-- `impl TryFrom<ShResult> for Option<Vec<u8>>` (from `sh_result_mapping`). -/
def shTryToData : ShResult → Except Unit (Option (List Nat))
  | .Data v => Except.ok v
  | _ => Except.error ()

/-- `impl From<Vec<(RecordId, RecordHint)>> for ShResult` (from `sh_result_mapping`). -/
def shFromListIds (i : List (RecordId × RecordHint)) : ShResult := ShResult.ListIds i

/-- `impl TryFrom<ShResult> for Vec<(RecordId, RecordHint)>` (from `sh_result_mapping`). -/
def shTryToListIds : ShResult → Except Unit (List (RecordId × RecordHint))
  | .ListIds v => Except.ok v
  | _ => Except.error ()

/-- `impl From<Result<Vec<ProcedureOutput>, ProcedureError>> for ShResult`
(from `sh_result_mapping`). -/
def shFromProc (i : Except ProcedureError (List ProcedureOutput)) : ShResult :=
  ShResult.Proc i

/-- `impl TryFrom<ShResult> for Result<Vec<ProcedureOutput>, ProcedureError>`
(from `sh_result_mapping`). -/
def shTryToProc : ShResult → Except Unit (Except ProcedureError (List ProcedureOutput))
  | .Proc v => Except.ok v
  | _ => Except.error ()

/-- `impl From<Result<(), RecordError>> for ShResult`: the handler-side
result, with the error rendered to a string. -/
def shFromRecordResult (inner : Except RecordError Unit) : ShResult :=
  ShResult.WriteRemoteVault (inner.mapError RecordError.to_string)

/-- `impl TryFrom<ShResult> for Result<(), RemoteRecordError>`. -/
def shTryToWriteRemoteVault : ShResult → Except Unit (Except RemoteRecordError Unit)
  | .WriteRemoteVault result => Except.ok result
  | _ => Except.error ()

/-- Per-client permissions (`ClientPermissions`): per-capability default
plus per-vault-path exception maps, and two flat store flags. -/
structure ClientPermissions where
  use_vault_default : Bool := false
  use_vault_exceptions : List (Path × Bool) := []
  write_vault_default : Bool := false
  write_vault_exceptions : List (Path × Bool) := []
  clone_vault_default : Bool := false
  clone_vault_exceptions : List (Path × Bool) := []
  read_store : Bool := false
  write_store : Bool := false
deriving DecidableEq

/-- `ClientPermissions::none()`: no access to any structures of the vault. -/
def ClientPermissions.none : ClientPermissions := {}

/-- `ClientPermissions::all()`: all operations on the client are permitted. -/
def ClientPermissions.all : ClientPermissions :=
  { use_vault_default := true
    write_vault_default := true
    clone_vault_default := true
    read_store := true
    write_store := true }

/-- `ClientPermissions::with_default_vault_access`. -/
def ClientPermissions.with_default_vault_access (self : ClientPermissions)
    ( use_ write clone_ : Bool) : ClientPermissions :=
  { self with
    use_vault_default := use_
    write_vault_default := write
    clone_vault_default := clone_ }

/-- `ClientPermissions::with_vault_access`: exactly as in the source, all
three inserts target `use_vault_exceptions` (insert is modelled by
prepending the binding, which `mapGet` resolves like a hash-map
overwrite). -/
def ClientPermissions.with_vault_access (self : ClientPermissions) (vault_path : Path)
    ( use_ write clone_ : Bool) : ClientPermissions :=
  let s := { self with use_vault_exceptions := (vault_path, use_) :: self.use_vault_exceptions }
  let s := { s with use_vault_exceptions := (vault_path, write) :: s.use_vault_exceptions }
  { s with use_vault_exceptions := (vault_path, clone_) :: s.use_vault_exceptions }

/-- `ClientPermissions::with_store_access`. -/
def ClientPermissions.with_store_access (self : ClientPermissions)
    (read write : Bool) : ClientPermissions :=
  { self with read_store := read, write_store := write }

/-- Top-level per-peer policy (`Permissions`). -/
structure Permissions where
  default : Option ClientPermissions := none
  exceptions : List (Path × Option ClientPermissions) := []
deriving DecidableEq

/-- `Permissions::allow_none()`: no operations are permitted. -/
def Permissions.allow_none : Permissions := {}

/-- `Permissions::allow_all()`: all operations on all clients are permitted. -/
def Permissions.allow_all : Permissions := { default := some ClientPermissions.all }

/-- `Permissions::with_default_permissions`. -/
def Permissions.with_default_permissions (self : Permissions)
    (permissions : Option ClientPermissions) : Permissions :=
  { self with default := permissions }

/-- `Permissions::with_client_permissions` (hash-map insert modelled by
prepending the binding). -/
def Permissions.with_client_permissions (self : Permissions) (client_path : Path)
    (permissions : Option ClientPermissions) : Permissions :=
  { self with exceptions := (client_path, permissions) :: self.exceptions }

/-- The capability variants (`Access`). -/
inductive Access where
  | Write (vault_path : Path)
  | Clone (vault_path : Path)
  | Use (vault_path : Path)
  | List (vault_path : Path)
  | ReadStore
  | WriteStore
deriving DecidableEq

/-- The derived capability request (`AccessRequest`). -/
structure AccessRequest where
  client_path : Path
  locations : List Access
deriving DecidableEq

/-- `AccessRequest::check_with_permissions`: resolve every required
capability by exception-then-default lookup and take the conjunction. -/
def AccessRequest.check_with_permissions (self : AccessRequest)
    (permissions : ClientPermissions) : Bool :=
  self.locations.all fun access =>
    match access with
    | Access.Use vault_path =>
        (mapGet permissions.use_vault_exceptions vault_path).getD permissions.use_vault_default
    | Access.Write vault_path =>
        (mapGet permissions.write_vault_exceptions vault_path).getD permissions.write_vault_default
    | Access.Clone vault_path =>
        (mapGet permissions.clone_vault_exceptions vault_path).getD permissions.clone_vault_default
    | Access.List vault_path =>
        let u :=
          (mapGet permissions.use_vault_exceptions vault_path).getD permissions.use_vault_default
        let w :=
          (mapGet permissions.write_vault_exceptions vault_path).getD permissions.write_vault_default
        let c :=
          (mapGet permissions.clone_vault_exceptions vault_path).getD permissions.clone_vault_default
        u || w || c
    | Access.ReadStore => permissions.read_store
    | Access.WriteStore => permissions.write_store

/-- `AccessRequest::check`: client-path exception-then-default lookup,
deny when the resolved `ClientPermissions` is absent. -/
def AccessRequest.check (self : AccessRequest) (permissions : Permissions) : Bool :=
  match (mapGet permissions.exceptions self.client_path).getD permissions.default with
  | some p => self.check_with_permissions p
  | Option.none => false

/-- `FwRequest::from_request`: the request classifier. -/
def AccessRequest.from_request (request : ShRequest) : AccessRequest :=
  let client_path := request.client_path
  let locations :=
    match request.request with
    | Request.CheckVault ⟨vault_path⟩ => [Access.List vault_path]
    | Request.ListIds ⟨vault_path⟩ => [Access.List vault_path]
    | Request.CheckRecord ⟨location⟩ => [Access.List location.vault_path]
    | Request.WriteToRemoteVault w => [Access.Write w.location.vault_path]
    | Request.RevokeData ⟨location⟩ => [Access.Write location.vault_path]
    | Request.ReadFromStore _ => [Access.ReadStore]
    | Request.WriteToStore _ => [Access.WriteStore]
    | Request.DeleteFromStore _ => [Access.WriteStore]
    | Request.Procedures p =>
        p.procedures.flatMap fun proc =>
          match proc with
          | StrongholdProcedure.RevokeData r => [Access.Write r.location.vault_path]
          | StrongholdProcedure.GarbageCollect g => [Access.Write g.vault_path]
          | proc =>
              let access : List Access := []
              let access :=
                match proc.input with
                | some input => access ++ [Access.Use input.vault_path]
                | Option.none => access
              let access :=
                match proc.output with
                | some output => access ++ [Access.Write output.vault_path]
                | Option.none => access
              access
  { client_path := client_path, locations := locations }

/-- Resolution of a single capability under a `ClientPermissions`, as
performed inside the evaluator for each entry. -/
def resolveAccess (permissions : ClientPermissions) (access : Access) : Bool :=
  match access with
  | Access.Use vault_path =>
      (mapGet permissions.use_vault_exceptions vault_path).getD permissions.use_vault_default
  | Access.Write vault_path =>
      (mapGet permissions.write_vault_exceptions vault_path).getD permissions.write_vault_default
  | Access.Clone vault_path =>
      (mapGet permissions.clone_vault_exceptions vault_path).getD permissions.clone_vault_default
  | Access.List vault_path =>
      let u :=
        (mapGet permissions.use_vault_exceptions vault_path).getD permissions.use_vault_default
      let w :=
        (mapGet permissions.write_vault_exceptions vault_path).getD permissions.write_vault_default
      let c :=
        (mapGet permissions.clone_vault_exceptions vault_path).getD permissions.clone_vault_default
      u || w || c
  | Access.ReadStore => permissions.read_store
  | Access.WriteStore => permissions.write_store

/-- The per-procedure capability contribution as the spec describes it:
Write on the target for the data-deleting procedures, otherwise Use on
the declared input (if any) followed by Write on the declared output
(if any). -/
def procedureAccess : StrongholdProcedure → List Access
  | StrongholdProcedure.RevokeData r => [Access.Write r.location.vault_path]
  | StrongholdProcedure.GarbageCollect g => [Access.Write g.vault_path]
  | StrongholdProcedure.Other i o =>
      (i.toList.map fun input => Access.Use input.vault_path)
        ++ (o.toList.map fun output => Access.Write output.vault_path)

/-- Fixture exhibiting the `with_vault_access` defect: three distinct
booleans routed through the builder. -/
def buggyVaultAccess : ClientPermissions :=
  ClientPermissions.none.with_vault_access [1] true false false

/-- Fixture for the exception-overrides-default property: defaults all
false, one Use exception `true` recorded for the given vault path. -/
def useExceptionFixture (v1 : Path) : ClientPermissions :=
  { ClientPermissions.none with use_vault_exceptions := [(v1, true)] }

/-- The conjunction inside the evaluator is the pointwise resolution of
every required capability. -/
theorem check_with_permissions_all (r : AccessRequest) (p : ClientPermissions) :
    r.check_with_permissions p = r.locations.all (resolveAccess p) := rfl

/-- The classifier sends a batched-procedure request to the concatenated
per-procedure capability lists. -/
theorem from_request_procedures (cp : Path) (procs : List StrongholdProcedure) :
    AccessRequest.from_request ⟨cp, Request.Procedures ⟨procs⟩⟩
      = ⟨cp, procs.flatMap procedureAccess⟩ := by
  unfold AccessRequest.from_request
  dsimp only
  congr 1
  apply List.flatMap_congr
  intro proc _
  cases proc with
  | RevokeData r => rfl
  | GarbageCollect g => rfl
  | Other i o => cases i <;> cases o <;> rfl

/-- A batch of procedures that each contribute no capability entry
classifies to the empty capability list. -/
theorem procedureAccess_flatMap_nil : ∀ (l : List StrongholdProcedure),
    (∀ proc ∈ l, proc = StrongholdProcedure.Other Option.none Option.none) →
    l.flatMap procedureAccess = [] := by
  intro l
  induction l with
  | nil => intro _; rfl
  | cons head tail ih =>
      intro hl
      rw [List.flatMap_cons, hl head (List.mem_cons_self _ _),
          ih (fun p hp => hl p (List.mem_cons_of_mem _ hp))]
      rfl

/-- On an empty capability list, the firewall decision is exactly the
presence of the resolved `ClientPermissions`. -/
theorem check_nil_locations (cp : Path) (perms : Permissions) :
    AccessRequest.check ⟨cp, []⟩ perms
      = ((mapGet perms.exceptions cp).getD perms.default).isSome := by
  unfold AccessRequest.check
  cases (mapGet perms.exceptions cp).getD perms.default <;> rfl

/-- C1: `AccessRequest::check` looks the client path up in the
exceptions, falling back to the default only when no entry is present;
an absent resolved `ClientPermissions` denies regardless of locations,
and otherwise the request is allowed if and only if every required
capability resolves to true (conjunction over the locations). -/
theorem check_exception_then_default_conjunction
    (r : AccessRequest) (perms : Permissions) :
    r.check perms = true ↔
      ∃ p, (mapGet perms.exceptions r.client_path).getD perms.default = some p ∧
        ∀ a ∈ r.locations, resolveAccess p a = true := by
  unfold AccessRequest.check
  cases h : (mapGet perms.exceptions r.client_path).getD perms.default with
  | none => simp
  | some p =>
      show r.check_with_permissions p = true ↔ _
      rw [check_with_permissions_all, List.all_eq_true]
      simp

/-- C2: evaluating `with_vault_access` at vault path `[1]` with the
three booleans `true, false, false` shows that all three inserts target
`use_vault_exceptions`: the recorded Use exception is the clone value
`false`, and the write and clone exception maps stay empty — the
builder does not write the three values into three distinct maps. -/
theorem with_vault_access_single_map :
    mapGet buggyVaultAccess.use_vault_exceptions [1] = some false
    ∧ buggyVaultAccess.write_vault_exceptions = []
    ∧ buggyVaultAccess.clone_vault_exceptions = [] := by
  decide

/-- C3: the classifier maps a `Procedures` request to the concatenation,
over its procedures in order, of the per-procedure capabilities: one
Write on the target vault path for `RevokeData` and `GarbageCollect`, a
Use on the declared input (if any) followed by a Write on the declared
output (if any) for every other procedure, and no entry for a procedure
declaring neither. -/
theorem procedures_classification :
    (∀ (cp : Path) (procs : List StrongholdProcedure),
      (AccessRequest.from_request ⟨cp, Request.Procedures ⟨procs⟩⟩).locations
        = procs.flatMap procedureAccess)
    ∧ procedureAccess (StrongholdProcedure.Other Option.none Option.none) = [] :=
  ⟨fun cp procs => congrArg AccessRequest.locations (from_request_procedures cp procs), rfl⟩

/-- C4: every non-`Procedures` request variant classifies to exactly one
capability: List on the vault path for `CheckVault`, `ListIds` and
`CheckRecord`; Write on the vault path for `WriteToRemoteVault` and
`RevokeData`; exactly `ReadStore` for `ReadFromStore`; and `WriteStore`
for `WriteToStore` and `DeleteFromStore`. -/
theorem simple_request_classification :
    (∀ (cp : Path) (m : CheckVault),
      (AccessRequest.from_request ⟨cp, Request.CheckVault m⟩).locations
        = [Access.List m.vault_path])
    ∧ (∀ (cp : Path) (m : ListIds),
      (AccessRequest.from_request ⟨cp, Request.ListIds m⟩).locations
        = [Access.List m.vault_path])
    ∧ (∀ (cp : Path) (m : CheckRecord),
      (AccessRequest.from_request ⟨cp, Request.CheckRecord m⟩).locations
        = [Access.List m.location.vault_path])
    ∧ (∀ (cp : Path) (m : WriteToRemoteVault),
      (AccessRequest.from_request ⟨cp, Request.WriteToRemoteVault m⟩).locations
        = [Access.Write m.location.vault_path])
    ∧ (∀ (cp : Path) (m : RevokeData),
      (AccessRequest.from_request ⟨cp, Request.RevokeData m⟩).locations
        = [Access.Write m.location.vault_path])
    ∧ (∀ (cp : Path) (m : ReadFromStore),
      (AccessRequest.from_request ⟨cp, Request.ReadFromStore m⟩).locations
        = [Access.ReadStore])
    ∧ (∀ (cp : Path) (m : WriteToStore),
      (AccessRequest.from_request ⟨cp, Request.WriteToStore m⟩).locations
        = [Access.WriteStore])
    ∧ (∀ (cp : Path) (m : DeleteFromStore),
      (AccessRequest.from_request ⟨cp, Request.DeleteFromStore m⟩).locations
        = [Access.WriteStore]) :=
  ⟨fun _ _ => rfl, fun _ _ => rfl, fun _ _ => rfl, fun _ _ => rfl,
   fun _ _ => rfl, fun _ _ => rfl, fun _ _ => rfl, fun _ _ => rfl⟩

/-- C5: under any `ClientPermissions`, a List capability on a vault path
evaluates to the logical OR of the evaluations of Use, Write and Clone
on that path. -/
theorem list_is_or_of_use_write_clone
    (p : ClientPermissions) (cp vp : Path) :
    AccessRequest.check_with_permissions ⟨cp, [Access.List vp]⟩ p
      = (AccessRequest.check_with_permissions ⟨cp, [Access.Use vp]⟩ p
         || AccessRequest.check_with_permissions ⟨cp, [Access.Write vp]⟩ p
         || AccessRequest.check_with_permissions ⟨cp, [Access.Clone vp]⟩ p) := by
  simp [AccessRequest.check_with_permissions]

/-- C6: `Permissions::allow_none()` denies every classified request, for
every client path and every vault path occurring in it. -/
theorem allow_none_denies_all (rq : ShRequest) :
    (AccessRequest.from_request rq).check Permissions.allow_none = false := rfl

/-- C7: `Permissions::allow_all()` allows every classified request, for
every client path and every vault path occurring in it. -/
theorem allow_all_allows_all (rq : ShRequest) :
    (AccessRequest.from_request rq).check Permissions.allow_all = true := by
  show (AccessRequest.from_request rq).check_with_permissions ClientPermissions.all = true
  rw [check_with_permissions_all, List.all_eq_true]
  intro a _
  cases a <;> rfl

/-- C8: a per-vault-path exception overrides the per-client default:
with Use default false and a Use exception true recorded for `v1`, a
Use or List capability on `v1` evaluates to true while the same
capability on an exception-free `v2` evaluates to false. -/
theorem exception_overrides_default (v1 v2 cp : Path) (h : v1 ≠ v2) :
    AccessRequest.check_with_permissions ⟨cp, [Access.Use v1]⟩ (useExceptionFixture v1) = true
    ∧ AccessRequest.check_with_permissions ⟨cp, [Access.List v1]⟩ (useExceptionFixture v1) = true
    ∧ AccessRequest.check_with_permissions ⟨cp, [Access.Use v2]⟩ (useExceptionFixture v1) = false
    ∧ AccessRequest.check_with_permissions ⟨cp, [Access.List v2]⟩ (useExceptionFixture v1)
        = false := by
  refine ⟨?_, ?_, ?_, ?_⟩ <;>
    simp [AccessRequest.check_with_permissions, useExceptionFixture, ClientPermissions.none,
      mapGet, h]

/-- Witness for C8 at `v1 = [1]`, `v2 = [2]`, client path `[]`. -/
theorem exception_overrides_default_witness :
    AccessRequest.check_with_permissions ⟨[], [Access.Use [1]]⟩ (useExceptionFixture [1]) = true
    ∧ AccessRequest.check_with_permissions ⟨[], [Access.List [1]]⟩ (useExceptionFixture [1]) = true
    ∧ AccessRequest.check_with_permissions ⟨[], [Access.Use [2]]⟩ (useExceptionFixture [1]) = false
    ∧ AccessRequest.check_with_permissions ⟨[], [Access.List [2]]⟩ (useExceptionFixture [1])
        = false :=
  exception_overrides_default [1] [2] [] (by decide)

/-- C9: each native result type round-trips losslessly through its
`ShResult` variant (the remote-vault write result round-trips at the
caller-side type, the handler-side conversion rendering the record
error to a string), and applying a conversion to an `ShResult` carrying
a different variant tag yields an error value rather than a panic. -/
theorem sh_result_conversions :
    (∀ u, shTryToUnit (shFromUnit u) = Except.ok u)
    ∧ (∀ b, shTryToBool (shFromBool b) = Except.ok b)
    ∧ (∀ d, shTryToData (shFromData d) = Except.ok d)
    ∧ (∀ l, shTryToListIds (shFromListIds l) = Except.ok l)
    ∧ (∀ r, shTryToProc (shFromProc r) = Except.ok r)
    ∧ (∀ r, shTryToWriteRemoteVault (ShResult.WriteRemoteVault r) = Except.ok r)
    ∧ (∀ r, shTryToWriteRemoteVault (shFromRecordResult r)
        = Except.ok (r.mapError RecordError.to_string))
    ∧ (∀ s, ShResult.tag s ≠ 0 → shTryToUnit s = Except.error ())
    ∧ (∀ s, ShResult.tag s ≠ 2 → shTryToBool s = Except.error ())
    ∧ (∀ s, ShResult.tag s ≠ 1 → shTryToData s = Except.error ())
    ∧ (∀ s, ShResult.tag s ≠ 4 → shTryToListIds s = Except.error ())
    ∧ (∀ s, ShResult.tag s ≠ 5 → shTryToProc s = Except.error ())
    ∧ (∀ s, ShResult.tag s ≠ 3 → shTryToWriteRemoteVault s = Except.error ()) := by
  refine ⟨fun u => rfl, fun b => rfl, fun d => rfl, fun l => rfl, fun r => rfl, fun r => rfl,
    fun r => rfl, ?_, ?_, ?_, ?_, ?_, ?_⟩ <;>
  · intro s h
    cases s <;> first | rfl | exact absurd rfl h

/-- Witness for C9: each conversion applied to a concretely wrong-tagged
`ShResult` value yields an error value. -/
theorem sh_result_conversions_witness :
    shTryToUnit (ShResult.Bool true) = Except.error ()
    ∧ shTryToBool (ShResult.Empty ()) = Except.error ()
    ∧ shTryToData (ShResult.Empty ()) = Except.error ()
    ∧ shTryToListIds (ShResult.Empty ()) = Except.error ()
    ∧ shTryToProc (ShResult.Empty ()) = Except.error ()
    ∧ shTryToWriteRemoteVault (ShResult.Empty ()) = Except.error () :=
  ⟨sh_result_conversions.2.2.2.2.2.2.2.1 (ShResult.Bool true) (by decide),
   sh_result_conversions.2.2.2.2.2.2.2.2.1 (ShResult.Empty ()) (by decide),
   sh_result_conversions.2.2.2.2.2.2.2.2.2.1 (ShResult.Empty ()) (by decide),
   sh_result_conversions.2.2.2.2.2.2.2.2.2.2.1 (ShResult.Empty ()) (by decide),
   sh_result_conversions.2.2.2.2.2.2.2.2.2.2.2.1 (ShResult.Empty ()) (by decide),
   sh_result_conversions.2.2.2.2.2.2.2.2.2.2.2.2 (ShResult.Empty ()) (by decide)⟩

/-- C10: a classified `Procedures` request all of whose procedures
declare neither input nor output yields an empty capability list, and
on it the firewall decision is exactly the presence of the resolved
`ClientPermissions` — true for any present permissions (even all-false
ones), false only when the resolved permissions are absent. -/
theorem empty_locations_check
    (cp : Path) (procs : List StrongholdProcedure) (perms : Permissions)
    (h : ∀ proc ∈ procs, proc = StrongholdProcedure.Other Option.none Option.none) :
    (AccessRequest.from_request ⟨cp, Request.Procedures ⟨procs⟩⟩).check perms
      = ((mapGet perms.exceptions cp).getD perms.default).isSome := by
  rw [from_request_procedures, procedureAccess_flatMap_nil procs h, check_nil_locations]

/-- Witness for C10: a one-procedure batch declaring neither input nor
output, checked against a permission set resolving to a present
`ClientPermissions`. -/
theorem empty_locations_check_witness :
    (AccessRequest.from_request
        ⟨[], Request.Procedures ⟨[StrongholdProcedure.Other Option.none Option.none]⟩⟩).check
        Permissions.allow_all
      = ((mapGet Permissions.allow_all.exceptions []).getD Permissions.allow_all.default).isSome :=
  empty_locations_check [] [StrongholdProcedure.Other Option.none Option.none]
    Permissions.allow_all (by decide)

end Stronghold
